import Mathlib

/-!
Shallow embedding of the Gmail-n-Calendar-Bot core: the per-user OAuth
credential lifecycle (src/mastra/integrations/googleAuth.ts) and the
calendar availability search (src/mastra/tools/googleCalendarTools.ts).

Times are integer milliseconds since the epoch. The calendar day used by
the source through Date.setHours is modelled as the UTC day (a fixed
timezone offset shifts every timestamp uniformly and does not affect any
claim). I/O effects are modelled by explicit parameters: a ReadOutcome
for the durable token file, a ConfigRead for the client configuration
file, a Bool for durable-write success, and an Option Credentials for
the outcome of the network token-refresh call (none meaning the provider
call threw).
-/

namespace GmailCalendarBot

/-- OAuth credential record, after the google-auth-library Credentials
shape used by the source: every field is optional; expiry_date is epoch
milliseconds. -/
structure Credentials where
  access_token : Option String
  refresh_token : Option String
  expiry_date : Option Int
  scope : Option String
  token_type : Option String
deriving Repr, DecidableEq

/-- The persisted user-token mapping: user-tokens.json is a string-keyed
JSON object. Key order of the object is not modelled. -/
abbrev Mapping := List (String × Credentials)

/-- Outcome of reading the durable token file user-tokens.json:
the file may be absent, unreadable (read or JSON.parse failure), or
readable with some mapping. -/
inductive ReadOutcome where
  | missing
  | unreadable
  | ok (m : Mapping)
deriving Repr, DecidableEq

/-- Module state of googleAuth.ts: the process-wide userTokensCache and
the durable file content. -/
structure AuthState where
  cache : Mapping
  disk : ReadOutcome
deriving Repr, DecidableEq

/-- Client configuration parsed from google-credentials.json (the
installed or web triple). -/
structure Config where
  client_id : String
  client_secret : String
  redirect_uris : List String
deriving Repr, DecidableEq

/-- Outcome of reading google-credentials.json. -/
inductive ConfigRead where
  | missing
  | unreadable
  | ok (c : Config)
deriving Repr, DecidableEq

/-- allTokens[userId] — JS object read on the token mapping. -/
def lookupUser (userId : String) (m : Mapping) : Option Credentials :=
  (m.find? (fun p => p.1 == userId)).map (fun p => p.2)

/-- delete allTokens[userId] — JS object delete. -/
def eraseUser (userId : String) (m : Mapping) : Mapping :=
  m.filter (fun p => p.1 != userId)

/-- allTokens[userId] = cred — JS object write; key order is not
modelled, so the updated binding is kept at the end. -/
def insertUser (userId : String) (cred : Credentials) (m : Mapping) : Mapping :=
  eraseUser userId m ++ [(userId, cred)]

/-- loadCredentials of googleAuth.ts, lines 22-35: return the cached
config if present; otherwise a missing file throws, an unreadable or
unparsable file throws (uncaught JSON.parse or readFileSync error), and
a readable file is parsed and returned. A thrown error is an
Except.error. -/
def loadCredentials (credentialsCache : Option Config) (disk : ConfigRead) :
    Except String Config :=
  match credentialsCache with
  | some c => Except.ok c
  | none =>
    match disk with
    | ConfigRead.missing => Except.error ("Google API credentials not found")
    | ConfigRead.unreadable => Except.error ("Failed to parse google-credentials.json")
    | ConfigRead.ok c => Except.ok c

/-- loadUserTokens of googleAuth.ts, lines 37-54: if the cache is
non-empty return it; otherwise read the file: on success cache and
return the parsed mapping, on a read or parse error log and start fresh
with an empty mapping, and when the file is absent also return the empty
mapping. The function never throws. -/
def loadUserTokens (s : AuthState) : Mapping × AuthState :=
  if s.cache.isEmpty then
    match s.disk with
    | ReadOutcome.ok m => (m, ⟨m, s.disk⟩)
    | ReadOutcome.unreadable => ([], ⟨[], s.disk⟩)
    | ReadOutcome.missing => ([], ⟨[], s.disk⟩)
  else (s.cache, s)

/-- saveUserTokens of googleAuth.ts, lines 56-63: try to write the
mapping to disk and then assign it to the cache; any write error is
caught and only logged, so the function always returns normally. writeOk
says whether the durable write succeeds. -/
def saveUserTokens (writeOk : Bool) (tokens : Mapping) (s : AuthState) :
    Except String AuthState :=
  if writeOk then Except.ok ⟨tokens, ReadOutcome.ok tokens⟩ else Except.ok s

/-- In the source, every caller of saveUserTokens passes the very object
returned by loadUserTokens, which is the cache object itself; the caller
mutates it in place before the call. applySave models that aliasing: the
cache already holds the mutated mapping when saveUserTokens runs. -/
def applySave (writeOk : Bool) (m : Mapping) (s : AuthState) : AuthState :=
  match saveUserTokens writeOk m ⟨m, s.disk⟩ with
  | Except.ok s2 => s2
  | Except.error _ => ⟨m, s.disk⟩

/-- The refresh buffer of getAuthenticatedClient, line 115:
5 * 60 * 1000 milliseconds. -/
def expiryBuffer : Int := 5 * 60 * 1000

/-- The refresh guard of getAuthenticatedClient, line 116:
userToken.expiry_date && userToken.expiry_date < Date.now() + buffer.
An absent (undefined or null) or zero expiry_date is falsy in JS, so no
refresh is attempted for it. -/
def needsRefresh (expiry : Option Int) (now : Int) : Bool :=
  match expiry with
  | none => false
  | some v => (v != 0) && decide (v < now + expiryBuffer)

/-- Field-level merge of the object spread, line 122: a field present in
the refresh response overrides, an absent field keeps the old value. -/
def mergeField {α : Type} (old new : Option α) : Option α :=
  match new with
  | some v => some v
  | none => old

/-- updatedTokens = { ...userToken, ...credentials } — line 122. -/
def mergeCredentials (old new : Credentials) : Credentials :=
  { access_token := mergeField old.access_token new.access_token
    refresh_token := mergeField old.refresh_token new.refresh_token
    expiry_date := mergeField old.expiry_date new.expiry_date
    scope := mergeField old.scope new.scope
    token_type := mergeField old.token_type new.token_type }

/-- getAuthenticatedClient of googleAuth.ts, lines 103-137. The returned
client is represented by the credentials it was built from via
setCredentials. refreshResult is the outcome of refreshAccessToken:
some r when the provider returns the partial credential r, none when the
call throws. The client-configuration load is modelled as succeeding
(its failure path is loadCredentials). -/
def getAuthenticatedClient (s : AuthState) (userId : String) (now : Int)
    (refreshResult : Option Credentials) (writeOk : Bool) :
    Option Credentials × AuthState :=
  match lookupUser userId (loadUserTokens s).1 with
  | none => (none, (loadUserTokens s).2)
  | some userToken =>
    if needsRefresh userToken.expiry_date now then
      match refreshResult with
      | some credentials =>
        (some (mergeCredentials userToken credentials),
          applySave writeOk
            (insertUser userId (mergeCredentials userToken credentials) (loadUserTokens s).1)
            (loadUserTokens s).2)
      | none =>
        (none, applySave writeOk (eraseUser userId (loadUserTokens s).1) (loadUserTokens s).2)
    else (some userToken, (loadUserTokens s).2)

/-- A half-open time range in milliseconds; used both for busy intervals
and for returned slots. The source field end is spelled end_. -/
structure Interval where
  start : Int
  end_ : Int
deriving Repr, DecidableEq

/-- currentDayStart, line 448: the calendar day of t at hour minH. -/
def dayStart (minH : Nat) (t : Int) : Int :=
  86400000 * t.ediv 86400000 + (minH : Int) * 3600000

/-- currentDayEnd, line 449: the calendar day of t at hour maxH. -/
def dayEnd (maxH : Nat) (t : Int) : Int :=
  86400000 * t.ediv 86400000 + (maxH : Int) * 3600000

/-- Lines 455-456: the window start of the day after t. -/
def nextDayStart (minH : Nat) (t : Int) : Int :=
  dayStart minH t + 86400000

/-- The overlap test of lines 461-463: a candidate [t, e) overlaps a
busy interval b iff t < b.end and e > b.start. -/
def overlaps (t e : Int) (b : Interval) : Bool :=
  decide (t < b.end_) && decide (e > b.start)

/-- busyTimes.some(...) — line 461. -/
def overlapsAny (busy : List Interval) (t e : Int) : Bool :=
  busy.any (overlaps t e)

/-- One step of the forEach of lines 473-479: raise the running maximum
to b.end when b overlaps the candidate and ends later. -/
def busyStep (t e : Int) (m : Int) (b : Interval) : Int :=
  if t < b.end_ ∧ e > b.start then (if b.end_ > m then b.end_ else m) else m

/-- maxBusyEndTime of lines 472-479, starting from currentTime. -/
def maxBusyEnd (busy : List Interval) (t e : Int) : Int :=
  busy.foldl (busyStep t e) t

/-- One iteration of the while loop of lines 444-482, as a step
function: none means the loop stops (guard false or the candidate slot
would pass endDT), some (acc2, t2) gives the accumulated slots and the
cursor for the next iteration. -/
def loopStep (busy : List Interval) (endDT durMs : Int) (minH maxH : Nat)
    (acc : List Interval) (t : Int) : Option (List Interval × Int) :=
  if t < endDT ∧ acc.length < 20 then
    if t + durMs > endDT then none
    else if t < dayStart minH t ∨ t + durMs > dayEnd maxH t then
      if t < dayStart minH t then some (acc, dayStart minH t)
      else some (acc, nextDayStart minH t)
    else if overlapsAny busy t (t + durMs) = true then
      some (acc, maxBusyEnd busy t (t + durMs))
    else some (acc ++ [⟨t, t + durMs⟩], t + 15 * 60000)
  else none

/-- The while loop of lines 444-482, run to completion. Total by
well-founded recursion: every step strictly advances the cursor, which
is bounded by endDT while the loop runs. -/
def findSlotsLoop (busy : List Interval) (endDT durMs : Int) (minH maxH : Nat)
    (acc : List Interval) (t : Int) : List Interval :=
  match h : loopStep busy endDT durMs minH maxH acc t with
  | none => acc
  | some (acc2, t2) => findSlotsLoop busy endDT durMs minH maxH acc2 t2
termination_by (endDT - t).toNat
decreasing_by
  unfold loopStep at h
  split_ifs at h with h1 h2 h3 h4 h5
  · -- window jump to the day start of t
    simp only [Option.some.injEq, Prod.mk.injEq] at h
    obtain ⟨-, h7⟩ := h
    subst h7
    omega
  · -- window jump to the next day start
    simp only [Option.some.injEq, Prod.mk.injEq] at h
    obtain ⟨-, h7⟩ := h
    subst h7
    have hnd : t < nextDayStart minH t := by
      unfold nextDayStart dayStart
      have he1 : 86400000 * (t.ediv 86400000) + t.emod 86400000 = t :=
        Int.ediv_add_emod t 86400000
      have he2 : t.emod 86400000 < 86400000 := Int.emod_lt_of_pos t (by norm_num)
      have he3 : (0 : Int) ≤ (minH : Int) := Int.natCast_nonneg minH
      omega
    omega
  · -- jump past the blocking busy intervals
    simp only [Option.some.injEq, Prod.mk.injEq] at h
    obtain ⟨-, h7⟩ := h
    subst h7
    have hmb : t < maxBusyEnd busy t (t + durMs) := by
      rw [overlapsAny, List.any_eq_true] at h5
      obtain ⟨b, hb, hob⟩ := h5
      rw [overlaps, Bool.and_eq_true, decide_eq_true_eq, decide_eq_true_eq] at hob
      have hmono : ∀ (l : List Interval) (m : Int),
          m ≤ l.foldl (busyStep t (t + durMs)) m := by
        intro l
        induction l with
        | nil => intro m; exact le_refl m
        | cons c cs ih =>
          intro m
          refine le_trans ?_ (ih (busyStep t (t + durMs) m c))
          unfold busyStep
          split_ifs <;> omega
      have hmem : ∀ (l : List Interval) (m : Int),
          b ∈ l → b.end_ ≤ l.foldl (busyStep t (t + durMs)) m := by
        intro l
        induction l with
        | nil => intro m hm; cases hm
        | cons c cs ih =>
          intro m hm
          rcases List.mem_cons.mp hm with hbc | hbs
          · subst hbc
            refine le_trans ?_ (hmono cs (busyStep t (t + durMs) m b))
            unfold busyStep
            rw [if_pos ⟨hob.1, hob.2⟩]
            split_ifs <;> omega
          · exact ih (busyStep t (t + durMs) m c) hbs
      calc t < b.end_ := hob.1
        _ ≤ maxBusyEnd busy t (t + durMs) := hmem busy t hb
    omega
  · -- slot accepted, cursor advances by the fixed 15-minute step
    simp only [Option.some.injEq, Prod.mk.injEq] at h
    obtain ⟨-, h7⟩ := h
    subst h7
    omega

/-- The availability computation of lines 437-484: run the loop from
startDT with millisecond duration durMin * 60000 and return the first
10 slots (the slice(0, 10) of line 484). -/
def findSlots (startDT endDT durMin : Int) (minH maxH : Nat)
    (busy : List Interval) : List Interval :=
  (findSlotsLoop busy endDT (durMin * 60000) minH maxH [] startDT).take 10

/-- Fuel-indexed variant of findSlotsLoop, used to evaluate concrete
runs; it agrees with findSlotsLoop for sufficient fuel. -/
def findSlotsLoopFuel : Nat → List Interval → Int → Int → Nat → Nat →
    List Interval → Int → List Interval
  | 0, _, _, _, _, _, acc, _ => acc
  | Nat.succ fuel, busy, endDT, durMs, minH, maxH, acc, t =>
    match loopStep busy endDT durMs minH maxH acc t with
    | none => acc
    | some (acc2, t2) => findSlotsLoopFuel fuel busy endDT durMs minH maxH acc2 t2

/-- The zod input schema of lines 378-385: duration has min(1), both
hour bounds lie in 0..23; the schema states no relation between the two
hour bounds. -/
def inputSchemaOk (duration minStartHour maxEndHour : Int) : Bool :=
  decide (1 ≤ duration) && decide (0 ≤ minStartHour) && decide (minStartHour ≤ 23)
    && decide (0 ≤ maxEndHour) && decide (maxEndHour ≤ 23)

/-- The execute body of getCalendarAvailabilityTool, lines 390-484.
parsedStart and parsedEnd are the ensureRFC3339 results (none when the
date string does not parse), auth says whether getCalendarService
returns a client, and busy is the fetched event list. -/
def getCalendarAvailability (parsedStart parsedEnd : Option Int) (duration : Int)
    (minStartHour maxEndHour : Nat) (userIdPresent auth : Bool)
    (busy : List Interval) : Except String (List Interval) :=
  if !userIdPresent then Except.error ("Authentication error: User ID is required.")
  else
    match parsedStart, parsedEnd with
    | some s, some e =>
      if e ≤ s then Except.error ("End date must be after start date.")
      else if !auth then
        Except.error ("Google Authentication required. Please use /connect_google.")
      else Except.ok (findSlots s e duration minStartHour maxEndHour busy)
    | _, _ =>
      Except.error ("Invalid start or end date format provided. Use full ISO 8601 format with timezone.")

/-- The whole tool: zod schema validation, then the execute body. -/
def availabilityTool (duration minStartHour maxEndHour : Int)
    (parsedStart parsedEnd : Option Int) (userIdPresent auth : Bool)
    (busy : List Interval) : Except String (List Interval) :=
  if !inputSchemaOk duration minStartHour maxEndHour then
    Except.error ("input validation failed")
  else
    getCalendarAvailability parsedStart parsedEnd duration
      minStartHour.toNat maxEndHour.toNat userIdPresent auth busy

/-- The slot shape every accepted candidate satisfies at acceptance
time: disjoint from every busy interval, inside the working window of
its own day, and of exact duration. -/
def goodSlot (busy : List Interval) (durMs : Int) (minH maxH : Nat)
    (S : Interval) : Prop :=
  overlapsAny busy S.start S.end_ = false ∧
    dayStart minH S.start ≤ S.start ∧
    S.end_ ≤ dayEnd maxH S.start ∧
    S.end_ = S.start + durMs

/-- Busy intervals of scenario A of the spec: 10:00-11:00 and
13:00-14:00 on the epoch day. -/
def demoBusy : List Interval := [⟨36000000, 39600000⟩, ⟨46800000, 50400000⟩]

/-- A credential far from expiry. -/
def demoFreshCred : Credentials :=
  ⟨some ("tok"), some ("rt"), some 999999999999, none, none⟩

/-- A state whose only user u holds the fresh credential, cache warm. -/
def demoFreshState : AuthState :=
  ⟨[(("u"), demoFreshCred)], ReadOutcome.ok [(("u"), demoFreshCred)]⟩

/-- A credential near expiry at now = 10000000. -/
def demoStaleCred : Credentials :=
  ⟨some ("old"), some ("rt"), some 9000000, none, none⟩

/-- A state whose only user u holds the stale credential, cache warm. -/
def demoStaleState : AuthState :=
  ⟨[(("u"), demoStaleCred)], ReadOutcome.ok [(("u"), demoStaleCred)]⟩

/-- A refresh response carrying a new access token only: no refresh
token and no expiry. -/
def demoRefreshNoExpiry : Credentials :=
  ⟨some ("new"), none, none, none, none⟩

/-- A refresh response carrying a new access token and a far expiry but
no refresh token. -/
def demoRefreshFresh : Credentials :=
  ⟨some ("new"), none, some 99999999999, none, none⟩


theorem lookupUser_eraseUser (uid : String) (m : Mapping) :
    lookupUser uid (eraseUser uid m) = none := by
  simp [lookupUser, eraseUser, List.find?_eq_none, List.mem_filter]

theorem lookupUser_insertUser (uid : String) (cred : Credentials) (m : Mapping) :
    lookupUser uid (insertUser uid cred m) = some cred := by
  unfold insertUser lookupUser
  rw [List.find?_append]
  have h1 : (eraseUser uid m).find? (fun p => p.1 == uid) = none := by
    have h2 := lookupUser_eraseUser uid m
    unfold lookupUser at h2
    cases hf : (eraseUser uid m).find? (fun p => p.1 == uid) with
    | none => rfl
    | some p => rw [hf] at h2; simp at h2
  rw [h1]
  simp [List.find?]

theorem loadUserTokens_ok_self (m : Mapping) :
    loadUserTokens ⟨m, ReadOutcome.ok m⟩ = (m, ⟨m, ReadOutcome.ok m⟩) := by
  unfold loadUserTokens
  split <;> rfl

theorem applySave_true (m : Mapping) (s : AuthState) :
    applySave true m s = ⟨m, ReadOutcome.ok m⟩ := rfl

theorem applySave_false (m : Mapping) (s : AuthState) :
    applySave false m s = ⟨m, s.disk⟩ := rfl

theorem expiry_ge_of_not_needsRefresh {v now : Int} (hv0 : v ≠ 0)
    (h : needsRefresh (some v) now = false) : now + expiryBuffer ≤ v := by
  by_cases hlt : v < now + expiryBuffer
  · exfalso
    have ht : needsRefresh (some v) now = true := by
      simp [needsRefresh, bne_iff_ne, hv0, hlt]
    rw [h] at ht
    cases ht
  · omega

theorem getAuthenticatedClient_refresh_ok (s : AuthState) (uid : String) (now : Int)
    (r : Credentials) (writeOk : Bool) (c : Credentials)
    (hc : lookupUser uid (loadUserTokens s).1 = some c)
    (hnr : needsRefresh c.expiry_date now = true) :
    getAuthenticatedClient s uid now (some r) writeOk =
      (some (mergeCredentials c r),
        applySave writeOk (insertUser uid (mergeCredentials c r) (loadUserTokens s).1)
          (loadUserTokens s).2) := by
  simp [getAuthenticatedClient, hc, hnr]

theorem getAuthenticatedClient_refresh_fail (s : AuthState) (uid : String) (now : Int)
    (writeOk : Bool) (c : Credentials)
    (hc : lookupUser uid (loadUserTokens s).1 = some c)
    (hnr : needsRefresh c.expiry_date now = true) :
    getAuthenticatedClient s uid now none writeOk =
      (none, applySave writeOk (eraseUser uid (loadUserTokens s).1) (loadUserTokens s).2) := by
  simp [getAuthenticatedClient, hc, hnr]

theorem getAuthenticatedClient_no_refresh (s : AuthState) (uid : String) (now : Int)
    (refreshResult : Option Credentials) (writeOk : Bool) (c : Credentials)
    (hc : lookupUser uid (loadUserTokens s).1 = some c)
    (hnr : needsRefresh c.expiry_date now = false) :
    getAuthenticatedClient s uid now refreshResult writeOk = (some c, (loadUserTokens s).2) := by
  simp [getAuthenticatedClient, hc, hnr]


/-- C1 (amended): for a stored credential whose expiry_date is present
and nonzero, and assuming every successful refresh response carries an
expiry_date at least expiryBuffer past now, getAuthenticatedClient
either returns absent or returns a client whose credential expiry lies
at least expiryBuffer past the call time. -/
theorem C1_no_stale_client_amended (s : AuthState) (uid : String) (now : Int)
    (refreshResult : Option Credentials) (writeOk : Bool) (c : Credentials) (v : Int)
    (hc : lookupUser uid (loadUserTokens s).1 = some c)
    (hv : c.expiry_date = some v) (hv0 : v ≠ 0)
    (hr : ∀ r, refreshResult = some r → ∃ e, r.expiry_date = some e ∧ now + expiryBuffer ≤ e) :
    (getAuthenticatedClient s uid now refreshResult writeOk).1 = none ∨
      ∃ cred e, (getAuthenticatedClient s uid now refreshResult writeOk).1 = some cred ∧
        cred.expiry_date = some e ∧ now + expiryBuffer ≤ e := by
  cases hnr : needsRefresh c.expiry_date now with
  | false =>
    right
    refine ⟨c, v, ?_, hv, ?_⟩
    · rw [getAuthenticatedClient_no_refresh s uid now refreshResult writeOk c hc hnr]
    · exact expiry_ge_of_not_needsRefresh hv0 (hv ▸ hnr)
  | true =>
    cases hrr : refreshResult with
    | none =>
      left
      rw [getAuthenticatedClient_refresh_fail s uid now writeOk c hc hnr]
    | some r =>
      obtain ⟨e, he, hge⟩ := hr r hrr
      right
      refine ⟨mergeCredentials c r, e, ?_, ?_, hge⟩
      · rw [getAuthenticatedClient_refresh_ok s uid now r writeOk c hc hnr]
      · simp [mergeCredentials, mergeField, he]

/-- C1 witness: a fresh credential is returned unchanged and its expiry
lies past the buffer. -/
theorem C1_no_stale_client_witness :
    (getAuthenticatedClient demoFreshState ("u") 0 none true).1 = none ∨
      ∃ cred e, (getAuthenticatedClient demoFreshState ("u") 0 none true).1 = some cred ∧
        cred.expiry_date = some e ∧ 0 + expiryBuffer ≤ e :=
  C1_no_stale_client_amended demoFreshState ("u") 0 none true demoFreshCred 999999999999
    (by decide) (by decide) (by decide) (fun r h => nomatch h)

/-- C1 counterexample: the claim as stated is false. A refresh response
that omits expiry_date merges into a credential keeping the old
near-expired expiry, and getAuthenticatedClient returns a client built
from it instead of absent. -/
theorem C1_no_stale_client_counterexample :
    (getAuthenticatedClient demoStaleState ("u") 10000000 (some demoRefreshNoExpiry) true).1 =
      some ⟨some ("new"), some ("rt"), some 9000000, none, none⟩ ∧
      (9000000 : Int) < 10000000 + expiryBuffer :=
  ⟨by decide, by decide⟩

/-- C2: after a successful refresh the merged credential is returned,
cached, and (when the durable write succeeds) persisted, and every field
absent from the refresh response keeps its stored value; in particular a
response lacking refresh_token preserves the stored refresh_token. -/
theorem C2_merge_preserves_fields (s : AuthState) (uid : String) (now : Int)
    (r : Credentials) (writeOk : Bool) (c : Credentials)
    (hc : lookupUser uid (loadUserTokens s).1 = some c)
    (hnr : needsRefresh c.expiry_date now = true) :
    (getAuthenticatedClient s uid now (some r) writeOk).1 = some (mergeCredentials c r) ∧
    lookupUser uid (getAuthenticatedClient s uid now (some r) writeOk).2.cache =
      some (mergeCredentials c r) ∧
    (writeOk = true →
      (getAuthenticatedClient s uid now (some r) writeOk).2.disk =
        ReadOutcome.ok (insertUser uid (mergeCredentials c r) (loadUserTokens s).1)) ∧
    (r.refresh_token = none → (mergeCredentials c r).refresh_token = c.refresh_token) ∧
    (r.access_token = none → (mergeCredentials c r).access_token = c.access_token) ∧
    (r.expiry_date = none → (mergeCredentials c r).expiry_date = c.expiry_date) ∧
    (r.scope = none → (mergeCredentials c r).scope = c.scope) ∧
    (r.token_type = none → (mergeCredentials c r).token_type = c.token_type) := by
  have hres := getAuthenticatedClient_refresh_ok s uid now r writeOk c hc hnr
  refine ⟨?_, ?_, ?_, ?_, ?_, ?_, ?_, ?_⟩
  · rw [hres]
  · rw [hres]
    cases writeOk
    · rw [applySave_false]
      exact lookupUser_insertUser uid (mergeCredentials c r) (loadUserTokens s).1
    · rw [applySave_true]
      exact lookupUser_insertUser uid (mergeCredentials c r) (loadUserTokens s).1
  · intro hw
    subst hw
    rw [hres, applySave_true]
  · intro h
    simp [mergeCredentials, mergeField, h]
  · intro h
    simp [mergeCredentials, mergeField, h]
  · intro h
    simp [mergeCredentials, mergeField, h]
  · intro h
    simp [mergeCredentials, mergeField, h]
  · intro h
    simp [mergeCredentials, mergeField, h]

/-- C2 witness: the stored refresh token survives a refresh response
that omits it. -/
theorem C2_merge_preserves_fields_witness :
    (mergeCredentials demoStaleCred demoRefreshFresh).refresh_token =
      demoStaleCred.refresh_token :=
  (C2_merge_preserves_fields demoStaleState ("u") 10000000 demoRefreshFresh true demoStaleCred
      (by decide) (by decide)).2.2.2.1 rfl

/-- C3 (amended): when the refresh attempt fails, getAuthenticatedClient
returns absent (no exception) and removes the credential from the
mapping; provided the durable delete write succeeds, a subsequent store
lookup for that user also returns absent. -/
theorem C3_refresh_failure_amended (s : AuthState) (uid : String) (now : Int) (c : Credentials)
    (hc : lookupUser uid (loadUserTokens s).1 = some c)
    (hnr : needsRefresh c.expiry_date now = true) :
    (getAuthenticatedClient s uid now none true).1 = none ∧
    lookupUser uid (loadUserTokens (getAuthenticatedClient s uid now none true).2).1 = none := by
  rw [getAuthenticatedClient_refresh_fail s uid now true c hc hnr]
  refine ⟨rfl, ?_⟩
  rw [applySave_true, loadUserTokens_ok_self]
  exact lookupUser_eraseUser uid (loadUserTokens s).1

/-- C3 witness: concrete refresh failure with a successful durable
write. -/
theorem C3_refresh_failure_witness :
    (getAuthenticatedClient demoStaleState ("u") 10000000 none true).1 = none ∧
    lookupUser ("u")
      (loadUserTokens (getAuthenticatedClient demoStaleState ("u") 10000000 none true).2).1 =
      none :=
  C3_refresh_failure_amended demoStaleState ("u") 10000000 demoStaleCred (by decide) (by decide)

/-- C3 counterexample: the claim as stated is false when the durable
delete write fails for the only stored user: getAuthenticatedClient
still returns absent, but the emptied cache makes the next lookup reload
the stale mapping from disk, resurrecting the credential. -/
theorem C3_refresh_failure_counterexample :
    (getAuthenticatedClient demoStaleState ("u") 10000000 none false).1 = none ∧
    lookupUser ("u")
      (loadUserTokens (getAuthenticatedClient demoStaleState ("u") 10000000 none false).2).1 =
      some demoStaleCred :=
  ⟨by decide, by decide⟩

/-- C4 (amended): when the durable write fails, saveUserTokens catches
the error and merely logs it: no error reaches the caller, and neither
the in-memory cache nor the disk is changed by the call. -/
theorem C4_save_failure_amended (tokens : Mapping) (s : AuthState) :
    saveUserTokens false tokens s = Except.ok s := rfl

/-- C4 counterexample: the claim as stated is false: a failed durable
write returns a normal result, not a propagated PersistenceError. -/
theorem C4_save_failure_counterexample :
    saveUserTokens false [(("u"), demoStaleCred)] demoFreshState = Except.ok demoFreshState :=
  rfl

/-- C9 (amended): a missing or unreadable client configuration at cold
start makes loadCredentials throw, but an unreadable durable token store
does not stop the system: loadUserTokens logs and continues with the
empty credential mapping. -/
theorem C9_startup_amended :
    (∃ e, loadCredentials none ConfigRead.missing = Except.error e) ∧
    (∃ e, loadCredentials none ConfigRead.unreadable = Except.error e) ∧
    (loadUserTokens ⟨[], ReadOutcome.unreadable⟩).1 = [] ∧
    (loadUserTokens ⟨[], ReadOutcome.missing⟩).1 = [] :=
  ⟨⟨_, rfl⟩, ⟨_, rfl⟩, rfl, rfl⟩

/-- C9 counterexample: the claim as stated is false for the token store:
with an unreadable user-tokens file, loadUserTokens returns the empty
mapping and caches it instead of failing fatally. -/
theorem C9_startup_counterexample :
    loadUserTokens ⟨[], ReadOutcome.unreadable⟩ = ([], ⟨[], ReadOutcome.unreadable⟩) := rfl


theorem le_foldl_busyStep (t e : Int) (l : List Interval) :
    ∀ m : Int, m ≤ l.foldl (busyStep t e) m := by
  induction l with
  | nil => intro m; exact le_refl m
  | cons c cs ih =>
    intro m
    refine le_trans ?_ (ih (busyStep t e m c))
    unfold busyStep
    split_ifs <;> omega

theorem mem_le_foldl_busyStep (t e : Int) {b : Interval}
    (hbe : t < b.end_) (hbs : e > b.start) (l : List Interval) :
    ∀ m : Int, b ∈ l → b.end_ ≤ l.foldl (busyStep t e) m := by
  induction l with
  | nil => intro m hm; cases hm
  | cons c cs ih =>
    intro m hm
    rcases List.mem_cons.mp hm with hbc | hbs2
    · subst hbc
      refine le_trans ?_ (le_foldl_busyStep t e cs (busyStep t e m b))
      unfold busyStep
      rw [if_pos ⟨hbe, hbs⟩]
      split_ifs <;> omega
    · exact ih (busyStep t e m c) hbs2

theorem maxBusyEnd_gt {busy : List Interval} {t e : Int}
    (h : overlapsAny busy t e = true) : t < maxBusyEnd busy t e := by
  rw [overlapsAny, List.any_eq_true] at h
  obtain ⟨b, hb, hob⟩ := h
  rw [overlaps, Bool.and_eq_true, decide_eq_true_eq, decide_eq_true_eq] at hob
  calc t < b.end_ := hob.1
    _ ≤ maxBusyEnd busy t e := mem_le_foldl_busyStep t e hob.1 hob.2 busy t hb

theorem lt_nextDayStart (minH : Nat) (t : Int) : t < nextDayStart minH t := by
  unfold nextDayStart dayStart
  have he1 : 86400000 * (t.ediv 86400000) + t.emod 86400000 = t :=
    Int.ediv_add_emod t 86400000
  have he2 : t.emod 86400000 < 86400000 := Int.emod_lt_of_pos t (by norm_num)
  have he3 : (0 : Int) ≤ (minH : Int) := Int.natCast_nonneg minH
  omega

theorem loopStep_bounds {busy : List Interval} {endDT durMs : Int} {minH maxH : Nat}
    {acc : List Interval} {t : Int} {acc2 : List Interval} {t2 : Int}
    (h : loopStep busy endDT durMs minH maxH acc t = some (acc2, t2)) :
    t < endDT ∧ t < t2 := by
  unfold loopStep at h
  split_ifs at h with h1 h2 h3 h4 h5
  · simp only [Option.some.injEq, Prod.mk.injEq] at h
    exact ⟨h1.1, h.2 ▸ h4⟩
  · simp only [Option.some.injEq, Prod.mk.injEq] at h
    exact ⟨h1.1, h.2 ▸ lt_nextDayStart minH t⟩
  · simp only [Option.some.injEq, Prod.mk.injEq] at h
    exact ⟨h1.1, h.2 ▸ maxBusyEnd_gt h5⟩
  · simp only [Option.some.injEq, Prod.mk.injEq] at h
    refine ⟨h1.1, ?_⟩
    rw [← h.2]
    omega

theorem loopStep_cases {busy : List Interval} {endDT durMs : Int} {minH maxH : Nat}
    {acc : List Interval} {t : Int} {acc2 : List Interval} {t2 : Int}
    (h : loopStep busy endDT durMs minH maxH acc t = some (acc2, t2)) :
    acc2 = acc ∨
      (acc2 = acc ++ [⟨t, t + durMs⟩] ∧ t2 = t + 15 * 60000 ∧
        overlapsAny busy t (t + durMs) = false ∧
        dayStart minH t ≤ t ∧ t + durMs ≤ dayEnd maxH t) := by
  unfold loopStep at h
  split_ifs at h with h1 h2 h3 h4 h5
  · simp only [Option.some.injEq, Prod.mk.injEq] at h
    exact Or.inl h.1.symm
  · simp only [Option.some.injEq, Prod.mk.injEq] at h
    exact Or.inl h.1.symm
  · simp only [Option.some.injEq, Prod.mk.injEq] at h
    exact Or.inl h.1.symm
  · simp only [Option.some.injEq, Prod.mk.injEq] at h
    push_neg at h3
    refine Or.inr ⟨h.1.symm, h.2.symm, ?_, ?_, ?_⟩
    · simpa using h5
    · exact h3.1
    · exact h3.2

theorem findSlotsLoop_eq_none {busy : List Interval} {endDT durMs : Int} {minH maxH : Nat}
    {acc : List Interval} {t : Int}
    (hs : loopStep busy endDT durMs minH maxH acc t = none) :
    findSlotsLoop busy endDT durMs minH maxH acc t = acc := by
  unfold findSlotsLoop
  split
  · rfl
  · rename_i acc2 t2 heq
    rw [hs] at heq
    cases heq

theorem findSlotsLoop_eq_some {busy : List Interval} {endDT durMs : Int} {minH maxH : Nat}
    {acc : List Interval} {t : Int} {acc2 : List Interval} {t2 : Int}
    (hs : loopStep busy endDT durMs minH maxH acc t = some (acc2, t2)) :
    findSlotsLoop busy endDT durMs minH maxH acc t =
      findSlotsLoop busy endDT durMs minH maxH acc2 t2 := by
  conv_lhs => unfold findSlotsLoop
  split
  · rename_i heq
    rw [hs] at heq
    cases heq
  · rename_i acc3 t3 heq
    rw [hs] at heq
    injection heq with h2
    injection h2 with h3 h4
    rw [h3, h4]

theorem findSlotsLoopFuel_eq {busy : List Interval} {endDT durMs : Int} {minH maxH : Nat} :
    ∀ (fuel : Nat) (acc : List Interval) (t : Int), (endDT - t).toNat ≤ fuel →
      findSlotsLoopFuel fuel busy endDT durMs minH maxH acc t =
        findSlotsLoop busy endDT durMs minH maxH acc t := by
  intro fuel
  induction fuel with
  | zero =>
    intro acc t hf
    have hstop : loopStep busy endDT durMs minH maxH acc t = none := by
      unfold loopStep
      rw [if_neg]
      intro hcon
      omega
    rw [findSlotsLoop_eq_none hstop]
    rfl
  | succ fuel ih =>
    intro acc t hf
    unfold findSlotsLoopFuel
    cases hs : loopStep busy endDT durMs minH maxH acc t with
    | none => rw [findSlotsLoop_eq_none hs]
    | some p =>
      obtain ⟨acc2, t2⟩ := p
      rw [findSlotsLoop_eq_some hs]
      have hb := loopStep_bounds hs
      exact ih acc2 t2 (by omega)

theorem findSlots_eval (startDT endDT durMin : Int) (minH maxH : Nat)
    (busy : List Interval) :
    findSlots startDT endDT durMin minH maxH busy =
      (findSlotsLoopFuel (endDT - startDT).toNat busy endDT (durMin * 60000)
        minH maxH [] startDT).take 10 := by
  unfold findSlots
  rw [findSlotsLoopFuel_eq (endDT - startDT).toNat [] startDT (le_refl _)]


theorem findSlotsLoopFuel_good {busy : List Interval} {endDT durMs : Int}
    {minH maxH : Nat} :
    ∀ (fuel : Nat) (acc : List Interval) (t : Int),
      (∀ S ∈ acc, goodSlot busy durMs minH maxH S) →
      ∀ S ∈ findSlotsLoopFuel fuel busy endDT durMs minH maxH acc t,
        goodSlot busy durMs minH maxH S := by
  intro fuel
  induction fuel with
  | zero => intro acc t hacc S hS; exact hacc S hS
  | succ fuel ih =>
    intro acc t hacc S
    unfold findSlotsLoopFuel
    cases hs : loopStep busy endDT durMs minH maxH acc t with
    | none => intro hS; exact hacc S hS
    | some p =>
      obtain ⟨acc2, t2⟩ := p
      intro hS
      refine ih acc2 t2 ?_ S hS
      rcases loopStep_cases hs with hsame | ⟨happ, -, hov, hds, hde⟩
      · exact hsame ▸ hacc
      · subst happ
        intro S2 hS2
        rcases List.mem_append.mp hS2 with h1 | h1
        · exact hacc S2 h1
        · rcases List.mem_singleton.mp h1 with rfl
          exact ⟨hov, hds, hde, rfl⟩

theorem findSlotsLoopFuel_sorted {busy : List Interval} {endDT durMs : Int}
    {minH maxH : Nat} :
    ∀ (fuel : Nat) (acc : List Interval) (t : Int),
      (∀ S ∈ acc, S.start < t) →
      List.Pairwise (fun a b => a.start < b.start) acc →
      List.Pairwise (fun a b => a.start < b.start)
        (findSlotsLoopFuel fuel busy endDT durMs minH maxH acc t) := by
  intro fuel
  induction fuel with
  | zero => intro acc t hlt hp; exact hp
  | succ fuel ih =>
    intro acc t hlt hp
    unfold findSlotsLoopFuel
    cases hs : loopStep busy endDT durMs minH maxH acc t with
    | none => exact hp
    | some p =>
      obtain ⟨acc2, t2⟩ := p
      have hb := loopStep_bounds hs
      rcases loopStep_cases hs with hsame | ⟨happ, ht2, hov, hds, hde⟩
      · refine ih acc2 t2 ?_ ?_
        · rw [hsame]
          exact fun S hS => lt_trans (hlt S hS) hb.2
        · rw [hsame]
          exact hp
      · subst happ
        subst ht2
        refine ih _ _ ?_ ?_
        · intro S hS
          rcases List.mem_append.mp hS with h1 | h1
          · exact lt_trans (hlt S h1) (by omega)
          · rcases List.mem_singleton.mp h1 with rfl
            show t < t + 15 * 60000
            omega
        · rw [List.pairwise_append]
          refine ⟨hp, List.pairwise_singleton _ _, ?_⟩
          intro a ha b hb2
          rcases List.mem_singleton.mp hb2 with rfl
          exact hlt a ha

theorem findSlots_good {startDT endDT durMin : Int} {minH maxH : Nat}
    {busy : List Interval} {S : Interval}
    (hS : S ∈ findSlots startDT endDT durMin minH maxH busy) :
    goodSlot busy (durMin * 60000) minH maxH S := by
  rw [findSlots_eval] at hS
  have hS2 := (List.take_sublist 10 _).subset hS
  exact findSlotsLoopFuel_good _ [] startDT
    (fun S2 h => absurd h (List.not_mem_nil S2)) S hS2

/-- C5: every slot returned by the availability search is disjoint from
every input busy interval. -/
theorem C5_slot_disjoint (startDT endDT durMin : Int) (minH maxH : Nat)
    (busy : List Interval) (S B : Interval)
    (hS : S ∈ findSlots startDT endDT durMin minH maxH busy) (hB : B ∈ busy) :
    ¬(S.start < B.end_ ∧ S.end_ > B.start) := by
  have hov := (findSlots_good hS).1
  rw [overlapsAny, List.any_eq_false] at hov
  have hB2 := hov B hB
  rw [overlaps] at hB2
  intro hcon
  exact hB2 (by simp [hcon.1, hcon.2])

/-- C5 witness: the first slot of scenario A against its first busy
interval. -/
theorem C5_slot_disjoint_witness :
    ¬((32400000 : Int) < (39600000 : Int) ∧ (34200000 : Int) > (36000000 : Int)) :=
  C5_slot_disjoint 0 86400000 30 9 17 demoBusy ⟨32400000, 34200000⟩ ⟨36000000, 39600000⟩
    (by rw [findSlots_eval]; decide) (by decide)

/-- C6: every returned slot starts no earlier than its own calendar day
at minHour and ends no later than the same day at maxHour. -/
theorem C6_window_containment (startDT endDT durMin : Int) (minH maxH : Nat)
    (busy : List Interval) (S : Interval)
    (hS : S ∈ findSlots startDT endDT durMin minH maxH busy) :
    dayStart minH S.start ≤ S.start ∧ S.end_ ≤ dayEnd maxH S.start :=
  ⟨(findSlots_good hS).2.1, (findSlots_good hS).2.2.1⟩

/-- C6 witness: the first slot of scenario A lies inside the 9-17
window of its day. -/
theorem C6_window_containment_witness :
    dayStart 9 (32400000 : Int) ≤ (32400000 : Int) ∧
      (34200000 : Int) ≤ dayEnd 17 (32400000 : Int) :=
  C6_window_containment 0 86400000 30 9 17 demoBusy ⟨32400000, 34200000⟩
    (by rw [findSlots_eval]; decide)

/-- C7: the availability search returns at most 10 slots, in strictly
increasing order of start time, for every input. -/
theorem C7_cap_and_order (startDT endDT durMin : Int) (minH maxH : Nat)
    (busy : List Interval) :
    (findSlots startDT endDT durMin minH maxH busy).length ≤ 10 ∧
    List.Pairwise (fun a b => a.start < b.start)
      (findSlots startDT endDT durMin minH maxH busy) := by
  constructor
  · rw [findSlots, List.length_take]
    exact min_le_left _ _
  · rw [findSlots_eval]
    refine List.Pairwise.sublist (List.take_sublist 10 _) ?_
    exact findSlotsLoopFuel_sorted _ [] startDT
      (fun S h => absurd h (List.not_mem_nil S)) List.Pairwise.nil

/-- C8 (amended): an inverted date range is rejected by execute before
the store or network is touched, and a non-positive duration is
rejected by the input schema; but an inverted hour window
(minHour ≥ maxHour) is NOT rejected: the search runs and returns the
empty list. -/
theorem C8_validation_amended :
    (∀ (duration minH maxH s e : Int) (auth : Bool) (busy : List Interval),
      inputSchemaOk duration minH maxH = true → e ≤ s →
      availabilityTool duration minH maxH (some s) (some e) true auth busy =
        Except.error ("End date must be after start date.")) ∧
    (∀ (duration minH maxH : Int) (ps pe : Option Int) (uid auth : Bool)
      (busy : List Interval),
      duration < 1 →
      availabilityTool duration minH maxH ps pe uid auth busy =
        Except.error ("input validation failed")) ∧
    availabilityTool 30 17 9 (some 0) (some 86400000) true true [] = Except.ok [] := by
  refine ⟨?_, ?_, ?_⟩
  · intro duration minH maxH s e auth busy hschema hle
    unfold availabilityTool
    rw [hschema]
    unfold getCalendarAvailability
    simp [hle]
  · intro duration minH maxH ps pe uid auth busy hd
    have hbad : inputSchemaOk duration minH maxH = false := by
      unfold inputSchemaOk
      rw [decide_eq_false (by omega : ¬(1 ≤ duration))]
      simp
    unfold availabilityTool
    rw [hbad]
    rfl
  · have h1 : availabilityTool 30 17 9 (some 0) (some 86400000) true true [] =
        Except.ok (findSlots 0 86400000 30 17 9 []) := rfl
    rw [h1, findSlots_eval]
    have h2 : (findSlotsLoopFuel ((86400000 : Int) - 0).toNat [] 86400000 (30 * 60000)
        17 9 [] 0).take 10 = ([] : List Interval) := by decide
    rw [h2]

/-- C8 witness: a concrete inverted range is rejected. -/
theorem C8_validation_witness :
    availabilityTool 30 5 9 (some 100) (some 50) true true [] =
      Except.error ("End date must be after start date.") :=
  C8_validation_amended.1 30 5 9 100 50 true [] (by decide) (by decide)

/-- C8 counterexample: the claim as stated is false: a request with
minHour = 17 ≥ maxHour = 9 passes the schema and execute runs the
search to a normal empty result instead of rejecting with a validation
error. -/
theorem C8_validation_counterexample :
    availabilityTool 30 17 9 (some 0) (some 86400000) true true [] = Except.ok [] := by
  have h1 : availabilityTool 30 17 9 (some 0) (some 86400000) true true [] =
      Except.ok (findSlots 0 86400000 30 17 9 []) := rfl
  rw [h1, findSlots_eval]
  have h2 : (findSlotsLoopFuel ((86400000 : Int) - 0).toNat [] 86400000 (30 * 60000)
      17 9 [] 0).take 10 = ([] : List Interval) := by decide
  rw [h2]

/-- C10: every loop iteration that continues strictly increases the
cursor, which justifies embedding the search loop as a total function
by well-founded recursion on endDT - t (findSlotsLoop above). -/
theorem C10_cursor_increases (busy : List Interval) (endDT durMs : Int)
    (minH maxH : Nat) (acc : List Interval) (t : Int) (acc2 : List Interval) (t2 : Int)
    (h : loopStep busy endDT durMs minH maxH acc t = some (acc2, t2)) :
    t < t2 :=
  (loopStep_bounds h).2

/-- C10 witness: a concrete continuing step advances the cursor. -/
theorem C10_cursor_increases_witness :
    loopStep [] 86400000 1800000 9 17 [] 0 = some ([], 32400000) ∧ (0 : Int) < 32400000 :=
  ⟨by decide, C10_cursor_increases [] 86400000 1800000 9 17 [] 0 [] 32400000 (by decide)⟩

end GmailCalendarBot




